import Mathlib

/-!
Shallow embedding of `challenge.py`, a script that normalizes US postal
addresses from three file formats (XML markup, TSV tabular, block text)
into one record shape and emits a single list sorted by zip code.

Conventions of the embedding:
* Python strings are `String`; `str.strip`, `str.lstrip`, `str.rstrip`
  are modelled character-exactly on `List Char`.
* A Python dict-shaped address record becomes a structure of `Option String`
  fields; `none` means the key is absent from the dict.
* Fallible code returns `Except RunError`; `RunError.formatError` is the
  script's `InvalidFileFormatError`, `RunError.runtimeError` is any other
  uncaught Python exception (`AttributeError`, `IndexError`, `KeyError`).
* `sorted(..., key=lambda x: x['zip'])` is a stable sort by a string key;
  it is modelled by `List.insertionSort` with the (total) lexicographic
  order on the key, which computes the same unique stable result.
-/

namespace Challenge

/-- Characters removed by Python `str.strip()` with no argument. -/
def isPySpace (c : Char) : Bool :=
  c == ' ' || c == '\t' || c == '\n' || c == '\r' || c == '\x0b' || c == '\x0c'

/-- Drop the longest suffix whose characters all satisfy `p`. -/
def dropTrailing (p : Char → Bool) (l : List Char) : List Char :=
  (l.reverse.dropWhile p).reverse

/-- Python `s.strip()` on a character list. -/
def pyStripList (l : List Char) : List Char :=
  dropTrailing isPySpace (l.dropWhile isPySpace)

/-- Python `s.strip()`. -/
def pyStrip (s : String) : String :=
  (pyStripList s.toList).asString

/-- Python `s.lstrip(c)` for a single character `c`. -/
def lstripChar (c : Char) (s : String) : String :=
  (s.toList.dropWhile (· == c)).asString

/-- Python `s.rstrip(c)` for a single character `c`. -/
def rstripChar (c : Char) (s : String) : String :=
  (dropTrailing (· == c) s.toList).asString

/-- Python `s.rstrip(cs)` for a set of characters `cs`. -/
def rstripSet (cs : List Char) (s : String) : String :=
  (dropTrailing (cs.contains ·) s.toList).asString

/-- Python `' '.join(parts)`. -/
def joinSpace : List String → String
  | [] => ""
  | [part] => part
  | part :: rest => part ++ " " ++ joinSpace rest

/-- Python `s.split(sep)` for a nonempty `sep`: scan left to right for
non-overlapping occurrences of `sep` and cut there. Fueled structural
recursion (the fuel is the length of the scanned list, enough since every
step consumes at least one character); `acc` holds the current piece
reversed. -/
def pySplitGo (sep : List Char) : Nat → List Char → List Char → List (List Char)
  | _, acc, [] => [acc.reverse]
  | 0, acc, rest => [acc.reverse ++ rest]
  | fuel + 1, acc, c :: cs =>
      if sep.isPrefixOf (c :: cs) then
        acc.reverse :: pySplitGo sep fuel [] ((c :: cs).drop sep.length)
      else
        pySplitGo sep fuel (c :: acc) cs

/-- Python `s.split(sep)` for a nonempty `sep`. -/
def pySplit (sep : String) (s : String) : List String :=
  (pySplitGo sep.toList s.toList.length [] s.toList).map List.asString

/-- Lexicographic `≤` on character lists: exactly how Python compares two
strings (first differing code point decides; a prefix sorts first). -/
def strLeChars : List Char → List Char → Bool
  | [], _ => true
  | _ :: _, [] => false
  | a :: as, b :: bs =>
      if a < b then true
      else if b < a then false
      else strLeChars as bs

/-- Python string `<=`. -/
def pyStrLe (a b : String) : Bool :=
  strLeChars a.toList b.toList

/-- The two error species observable from the script: its own
`InvalidFileFormatError`, and any other uncaught Python exception. -/
inductive RunError where
  | formatError (msg : String)
  | runtimeError (msg : String)
deriving Repr, DecidableEq

instance {ε α : Type} [DecidableEq ε] [DecidableEq α] : DecidableEq (Except ε α) :=
  fun x y =>
    match x, y with
    | .ok a, .ok b => if h : a = b then .isTrue (by rw [h]) else .isFalse (by simp [h])
    | .error a, .error b => if h : a = b then .isTrue (by rw [h]) else .isFalse (by simp [h])
    | .ok _, .error _ => .isFalse (by simp)
    | .error _, .ok _ => .isFalse (by simp)

/-- The output unit: a dict with optional keys
`name`, `organization`, `street`, `city`, `state`, `county`, `zip`;
`none` models the key being absent. -/
structure Record where
  name : Option String := none
  organization : Option String := none
  street : Option String := none
  city : Option String := none
  state : Option String := none
  county : Option String := none
  zip : Option String := none
deriving Repr, DecidableEq

/-- `is_valid_data`: a value is present data iff it is neither `"N/A"` nor `""`. -/
def is_valid_data (value : String) : Bool :=
  !(value == "N/A" || value == "")

/-! ## TSV parser (`parse_tsv`) -/

/-- One data row of a TSV file, keyed by the ten expected headers.
(`csv.DictReader` rows; the embedding models complete rows.) -/
structure TsvRow where
  first : String
  middle : String
  last : String
  organization : String
  address : String
  city : String
  state : String
  county : String
  zip : String
  zip4 : String
deriving Repr, DecidableEq

/-- `EXPECTED_HEADERS` from `parse_tsv`. -/
def EXPECTED_HEADERS : List String :=
  ["first", "middle", "last",
   "organization", "address", "city",
   "state", "county", "zip", "zip4"]

/-- `check_tsv_format`: the expected headers missing from the file's header row. -/
def check_tsv_format (headers expected_headers : List String) : List String :=
  expected_headers.filter (fun header => !headers.contains header)

/-- The body of `parse_tsv`'s row loop: build the address dict of one row. -/
def tsvRecord (row : TsvRow) : Record :=
  let a0 : Record := {}
  let a1 :=
    if !is_valid_data row.first && is_valid_data row.last then
      { a0 with organization := some row.last }
    else
      let name_parts := [row.first, row.middle, row.last]
      { a0 with name := some (joinSpace (name_parts.filter is_valid_data)) }
  let a2 := if is_valid_data row.address then { a1 with street := some row.address } else a1
  let a3 := if is_valid_data row.city then { a2 with city := some row.city } else a2
  let a4 := if is_valid_data row.county then { a3 with county := some row.county } else a3
  let a5 := if is_valid_data row.state then { a4 with state := some row.state } else a4
  if is_valid_data row.zip then
    let zip_code := if is_valid_data row.zip4 then row.zip ++ "-" ++ row.zip4 else row.zip
    { a5 with zip := some zip_code }
  else a5

/-- A TSV file: header row plus data rows. -/
structure TsvFile where
  headers : List String
  rows : List TsvRow
deriving Repr, DecidableEq

/-- `parse_tsv`: check headers, then map the row loop over the data rows. -/
def parse_tsv (file_path : String) (file : TsvFile) : Except RunError (List Record) :=
  let missing_headers := check_tsv_format file.headers EXPECTED_HEADERS
  if missing_headers.isEmpty then
    .ok (file.rows.map tsvRecord)
  else
    .error (.formatError
      ("The file " ++ file_path ++ " is missing headers: "
        ++ String.intercalate ", " missing_headers))

/-! ## XML parser (`parse_xml`) -/

/-- An `ENT` entry node. Each field models `entry.find(TAG)`:
the outer `Option` is element presence (`find` returning `None`),
the inner `Option` is the element's `.text` (a textless element has
`text = None`). -/
structure XmlEntry where
  name : Option (Option String) := none
  company : Option (Option String) := none
  street : Option (Option String) := none
  street_2 : Option (Option String) := none
  street_3 : Option (Option String) := none
  city : Option (Option String) := none
  state : Option (Option String) := none
  country : Option (Option String) := none
  postal_code : Option (Option String) := none
deriving Repr, DecidableEq

/-- An XML document: a root element over the `ENT` entry nodes.
`rootTag` stands in for the root element's own tag in `root.iter()`. -/
structure XmlDoc where
  rootTag : String
  entries : List XmlEntry
deriving Repr, DecidableEq

/-- `EXPERCTED_TAGS` from `parse_xml` (sic). -/
def EXPERCTED_TAGS : List String :=
  ["NAME", "COMPANY", "STREET",
   "STREET_2", "STREET_3", "CITY",
   "STATE", "COUNTRY", "POSTAL_CODE"]

/-- Tags of the child elements present in one entry. -/
def entryTags (e : XmlEntry) : List String :=
  (if e.name.isSome then ["NAME"] else [])
    ++ (if e.company.isSome then ["COMPANY"] else [])
    ++ (if e.street.isSome then ["STREET"] else [])
    ++ (if e.street_2.isSome then ["STREET_2"] else [])
    ++ (if e.street_3.isSome then ["STREET_3"] else [])
    ++ (if e.city.isSome then ["CITY"] else [])
    ++ (if e.state.isSome then ["STATE"] else [])
    ++ (if e.country.isSome then ["COUNTRY"] else [])
    ++ (if e.postal_code.isSome then ["POSTAL_CODE"] else [])

/-- All tags of the document (`{elem.tag for elem in root.iter()}`). -/
def docTags (d : XmlDoc) : List String :=
  d.rootTag :: (d.entries.map (fun e => "ENT" :: entryTags e)).flatten

/-- `check_xml_format`: the expected tags absent from the whole document. -/
def check_xml_format (d : XmlDoc) (expected_tags : List String) : List String :=
  expected_tags.filter (fun tag => !(docTags d).contains tag)

/-- Python `elem.text.strip()`: an `AttributeError` when `text` is `None`. -/
def pyStripText (text : Option String) : Except RunError String :=
  match text with
  | none => .error (.runtimeError "AttributeError: NoneType object has no attribute strip")
  | some s => .ok (pyStrip s)

/-- The street-joining generator of `parse_xml`: for each present part,
`part.text.strip()` (which can raise), keeping non-blank results. -/
def streetTexts : List (Option (Option String)) → Except RunError (List String)
  | [] => .ok []
  | none :: rest => streetTexts rest
  | some text :: rest => do
      let s ← pyStripText text
      let others ← streetTexts rest
      pure (if s ≠ "" then s :: others else others)

/-- `if name is not None and name.text.strip(): address[name] = ...`
(an `AttributeError` when the element is present but textless). -/
def xmlNameStep (e : XmlEntry) (r : Record) : Except RunError Record :=
  match e.name with
  | none => .ok r
  | some text => do
      let s ← pyStripText text
      pure (if s ≠ "" then { r with name := some s } else r)

/-- The same check for `COMPANY`, filling `organization`. -/
def xmlCompanyStep (e : XmlEntry) (r : Record) : Except RunError Record :=
  match e.company with
  | none => .ok r
  | some text => do
      let s ← pyStripText text
      pure (if s ≠ "" then { r with organization := some s } else r)

/-- Join the present non-blank street parts; set `street` when non-empty. -/
def xmlStreetStep (e : XmlEntry) (r : Record) : Except RunError Record := do
  let parts ← streetTexts [e.street, e.street_2, e.street_3]
  let streets := joinSpace parts
  pure (if streets ≠ "" then { r with street := some streets } else r)

/-- `if city is not None and city.text: address[city] = city.text` (verbatim). -/
def xmlCityStep (e : XmlEntry) (r : Record) : Record :=
  match e.city with
  | some (some s) => if s ≠ "" then { r with city := some s } else r
  | _ => r

/-- The same verbatim check for `STATE`. -/
def xmlStateStep (e : XmlEntry) (r : Record) : Record :=
  match e.state with
  | some (some s) => if s ≠ "" then { r with state := some s } else r
  | _ => r

/-- `if postal_code is not None and postal_code.text:` set `zip` to
`postal_code.text.strip().rstrip(space-hyphen)`. -/
def xmlZipStep (e : XmlEntry) (r : Record) : Record :=
  match e.postal_code with
  | some (some s) =>
      if s ≠ "" then { r with zip := some (rstripSet [' ', '-'] (pyStrip s)) } else r
  | _ => r

/-- The body of `parse_xml`'s entry loop: build the address dict of one `ENT`. -/
def xmlEntryRecord (e : XmlEntry) : Except RunError Record := do
  let r1 ← xmlNameStep e {}
  let r2 ← xmlCompanyStep e r1
  let r3 ← xmlStreetStep e r2
  pure (xmlZipStep e (xmlStateStep e (xmlCityStep e r3)))

/-- The entry loop of `parse_xml`, accumulating one record per `ENT`. -/
def xmlEntriesLoop : List XmlEntry → Except RunError (List Record)
  | [] => .ok []
  | e :: rest => do
      let r ← xmlEntryRecord e
      let rs ← xmlEntriesLoop rest
      pure (r :: rs)

/-- `parse_xml`: document-wide tag check, then the entry loop. -/
def parse_xml (file_path : String) (doc : XmlDoc) : Except RunError (List Record) :=
  let missing_tags := check_xml_format doc EXPERCTED_TAGS
  if missing_tags.isEmpty then
    xmlEntriesLoop doc.entries
  else
    .error (.formatError
      ("The XML file " ++ file_path ++ " is missing tags: "
        ++ String.intercalate ", " missing_tags))

/-! ## TXT parser (`parse_txt`) -/

/-- `format_zip`: `zip_code.strip().rstrip(-).strip()`. -/
def format_zip (zip_code : String) : String :=
  pyStrip (rstripChar '-' (pyStrip zip_code))

/-- Python `s.rsplit(sep, 1)` on a character list: split at the LAST
occurrence of `sep`, giving `some (before, after)`, or `none` when `sep`
does not occur. -/
def rsplitOnceList (sep : Char) : List Char → Option (List Char × List Char)
  | [] => none
  | c :: cs =>
      match rsplitOnceList sep cs with
      | some (before, after) => some (c :: before, after)
      | none => if c == sep then some ([], cs) else none

/-- Python `s.rsplit(sep, 1)`: a list of one or two pieces. -/
def rsplitOnce (sep : Char) (s : String) : List String :=
  match rsplitOnceList sep s.toList with
  | some (before, after) => [before.asString, after.asString]
  | none => [s]

/-- Python `pieces[1]` on a split result: an `IndexError` when the
separator was not found and the list has a single element. -/
def pieceAt1 (pieces : List String) : Except RunError String :=
  match pieces with
  | _ :: second :: _ => .ok second
  | _ => .error (.runtimeError "IndexError: list index out of range")

/-- The non-blank trimmed lines of one blank-line-separated entry:
`[line.strip() for line in entry.split(newline) if line.strip()]`. -/
def entryLines (entry : String) : List String :=
  ((pySplit "\n" entry).map pyStrip).filter (fun line => line ≠ "")

/-- The format-error message of `parse_txt`, with the literal spaces the
backslash line continuations of the source embed in the f-string. -/
def txtErrMsg (file_path : String) (firstLine lastLine count : Nat) : String :=
  "Format error in " ++ file_path ++ " at line                     "
    ++ toString firstLine ++ "-" ++ toString lastLine
    ++ ": Entry with                     incorrect number of lines ("
    ++ toString count ++ ")"

/-- The body of `parse_txt`'s entry loop after the shape check:
build the address dict from the 3 or 4 non-blank lines. -/
def txtEntryRecord (lines : List String) : Except RunError Record := do
  let name := lstripChar '\t' (lines.getD 0 "")
  let street := lstripChar '\t' (lines.getD 1 "")
  let county := if lines.length == 4 then some (lstripChar '\t' (lines.getD 2 "")) else none
  let city_state_zip_line := lstripChar '\t' (lines.getLastD "")
  let city_state_zip := rsplitOnce ',' city_state_zip_line
  let city := pyStrip (city_state_zip.getD 0 "")
  let second ← pieceAt1 city_state_zip
  let state_zip := rsplitOnce ' ' second
  let state := pyStrip (state_zip.getD 0 "")
  let rawZip ← pieceAt1 state_zip
  pure { name := some name, street := some street, county := county,
         city := some city, state := some state, zip := some (format_zip rawZip) }

/-- The entry loop of `parse_txt`, threading the approximate line counter. -/
def txtEntriesLoop (file_path : String) (line_number : Nat) :
    List (List String) → Except RunError (List Record)
  | [] => .ok []
  | lines :: rest =>
      let ln := line_number + lines.length + 1
      if lines.length < 3 || lines.length > 4 then
        .error (.formatError (txtErrMsg file_path (ln - lines.length) (ln - 1) lines.length))
      else do
        let record ← txtEntryRecord lines
        let records ← txtEntriesLoop file_path ln rest
        pure (record :: records)

/-- The entries of a TXT file as line lists: strip the whole content,
split on blank lines (`content.split` at two consecutive newlines), and
reduce each entry to its non-blank trimmed lines. -/
def txtEntries (content : String) : List (List String) :=
  ((pySplit "\n\n" (pyStrip content)).map entryLines)

/-- `parse_txt`: strip the content, split entries on blank lines, loop. -/
def parse_txt (file_path : String) (content : String) : Except RunError (List Record) :=
  txtEntriesLoop file_path 0 (txtEntries content)

/-- The value of the script's `line_number` counter after a list of entries:
each entry advances it by its non-blank line count plus one. -/
def lineCount : List (List String) → Nat
  | [] => 0
  | lines :: rest => lines.length + 1 + lineCount rest

/-- A block-text entry whose last line is well shaped: it splits on a comma
into a city piece and a state-zip piece, the latter splits on a space, the
city and state pieces are non-blank, and the zip piece has a character that
is neither whitespace nor a hyphen. -/
def LastLineGood (lines : List String) : Prop :=
  ∃ c sz st z,
    rsplitOnce ',' (lstripChar '\t' (lines.getLastD "")) = [c, sz] ∧
    rsplitOnce ' ' sz = [st, z] ∧ pyStrip c ≠ "" ∧ pyStrip st ≠ "" ∧
    ∃ ch ∈ z.toList, isPySpace ch = false ∧ ch ≠ '-'

/-! ## Orchestrator (`process_files`, `main`) -/

/-- One command-line input as the orchestrator sees it: either the path is
not an existing regular file, or it carries content dispatched by its
extension, or its extension is unsupported. -/
inductive InputFile where
  | missingFile (path : String)
  | xmlFile (path : String) (doc : XmlDoc)
  | tsvFile (path : String) (file : TsvFile)
  | txtFile (path : String) (content : String)
  | unsupported (path : String)
deriving Repr

/-- The per-file dispatch inside `process_files`' loop: missing files and
unsupported extensions are skipped (logged, contributing no records). -/
def parseFile : InputFile → Except RunError (List Record)
  | .missingFile _ => .ok []
  | .xmlFile path doc => parse_xml path doc
  | .tsvFile path file => parse_tsv path file
  | .txtFile path content => parse_txt path content
  | .unsupported _ => .ok []

/-- The records a file contributes to the aggregate (none when it errors). -/
def parsedOrNil (f : InputFile) : List Record :=
  match parseFile f with
  | .ok rs => rs
  | .error _ => []

/-- The concatenation of the per-file record sequences, in input-file order,
preserving each file's internal order. -/
def concatRecords (files : List InputFile) : List Record :=
  (files.map parsedOrNil).flatten

/-- The sort key `lambda x: x['zip']`: raises `KeyError` when absent. -/
def zipKey (r : Record) : String :=
  r.zip.getD ""

/-- The key order used by the final sort: lexicographic string `≤`. -/
def zipLe (a b : Record) : Prop :=
  pyStrLe (zipKey a) (zipKey b) = true

instance : DecidableRel zipLe :=
  fun a b => inferInstanceAs (Decidable (pyStrLe (zipKey a) (zipKey b) = true))

/-- `sorted(all_addresses, key=lambda x: x['zip'])`: a `KeyError` when some
record lacks `zip`; otherwise the stable sort by the string key, modelled
by insertion sort (which computes the same unique stable result). -/
def sortByZip (l : List Record) : Except RunError (List Record) :=
  if l.all (fun r => r.zip.isSome) then
    .ok (l.insertionSort zipLe)
  else
    .error (.runtimeError "KeyError: zip")

/-- The accumulation loop of `process_files`. -/
def collectRecords (acc : List Record) :
    List InputFile → Except RunError (List Record)
  | [] => .ok acc
  | file :: rest => do
      let records ← parseFile file
      collectRecords (acc ++ records) rest

/-- `process_files`: accumulate every file's records, then sort by zip. -/
def process_files (files : List InputFile) : Except RunError (List Record) := do
  let all_addresses ← collectRecords [] files
  sortByZip all_addresses

/-- What one run of `main` observably does. -/
inductive Outcome where
  | success (json : List Record)
  | formatFailure (loggedError : String)
  | crashed (msg : String)
deriving Repr, DecidableEq

/-- `main`: print the JSON on success; on `InvalidFileFormatError` log the
message and `sys.exit(1)`; any other exception crashes uncaught. -/
def main_run (files : List InputFile) : Outcome :=
  match process_files files with
  | .ok records => .success records
  | .error (.formatError msg) => .formatFailure msg
  | .error (.runtimeError msg) => .crashed msg

/-- The process exit code of an outcome (Python exits 1 both on
`sys.exit(1)` and on an uncaught exception). -/
def exitCode : Outcome → Nat
  | .success _ => 0
  | .formatFailure _ => 1
  | .crashed _ => 1

/-- The JSON printed to standard output, if any. -/
def printedJson : Outcome → Option (List Record)
  | .success records => some records
  | .formatFailure _ => none
  | .crashed _ => none

/-- The `LEVEL: message` line `logging.error` writes to standard error on a
format failure. -/
def loggedStderr : Outcome → Option String
  | .formatFailure msg => some ("ERROR: " ++ msg)
  | _ => none

/-! ## Concrete inputs used by counterexamples and witnesses -/

/-- A TSV row whose every field is the missing-data sentinel. -/
def rowAllNA : TsvRow :=
  ⟨"N/A", "N/A", "N/A", "N/A", "N/A", "N/A", "N/A", "N/A", "N/A", "N/A"⟩

/-- A TSV file with the full expected header row and the all-sentinel row. -/
def tsvFileAllNA : TsvFile :=
  ⟨EXPECTED_HEADERS, [rowAllNA]⟩

/-- A TSV row representing an organization (`first` missing, `last` present). -/
def rowOrg : TsvRow :=
  ⟨"N/A", "N/A", "Acme", "N/A", "N/A", "N/A", "N/A", "N/A", "N/A", "N/A"⟩

/-- A TSV file with the full expected header row and the organization row. -/
def tsvFileOrg : TsvFile :=
  ⟨EXPECTED_HEADERS, [rowOrg]⟩

/-- A document with every expected tag present and one fully populated entry. -/
def docFull : XmlDoc :=
  { rootTag := "ROOT",
    entries := [{ name := some (some "Jane"), company := some (some "Acme"),
                  street := some (some "1 A St"), street_2 := some (some "x"),
                  street_3 := some (some "y"), city := some (some "B"),
                  state := some (some "CC"), country := some (some "US"),
                  postal_code := some (some "12345") }] }

/-- An `ENT` entry whose postal code is `"  12345 - "`. -/
def xmlEntryPostal : XmlEntry :=
  { name := some (some "Jane Doe"), street := some (some "1 A St"),
    city := some (some "B"), state := some (some "CC"),
    postal_code := some (some "  12345 - ") }

/-- The record `xmlEntryPostal` parses to. -/
def recordPostal : Record :=
  { name := some "Jane Doe", street := some "1 A St",
    city := some "B", state := some "CC", zip := some "12345" }

/-- A document that passes the document-wide tag check (every expected tag
occurs) but whose single entry has a present, textless `NAME` element. -/
def docEmptyName : XmlDoc :=
  { rootTag := "ROOT",
    entries := [{ name := some none, company := some (some "Acme"),
                  street := some (some "1 A St"), street_2 := some (some "x"),
                  street_3 := some (some "y"), city := some (some "B"),
                  state := some (some "CC"), country := some (some "US"),
                  postal_code := some (some "12345") }] }

/-- TXT content of two well-shaped entries with zips 30000 and 10000. -/
def txtContentA : String :=
  "A\n1 St\nX, AA 30000\n\nB\n2 St\nY, BB 10000"

/-- TXT content of one well-shaped entry with zip 20000. -/
def txtContentB : String :=
  "C\n3 St\nZ, CC 20000"

/-- Input file A (zips 30000, 10000). -/
def fileA : InputFile := .txtFile "a.txt" txtContentA

/-- Input file B (zip 20000). -/
def fileB : InputFile := .txtFile "b.txt" txtContentB

/-- A TSV input file whose header row is missing most expected headers. -/
def fileBadTsv : InputFile := .tsvFile "c.tsv" ⟨["first"], []⟩

/-! ## Helper lemmas -/

theorem exceptBind_ok {α β : Type} {x : Except RunError α} {f : α → Except RunError β}
    {b : β} (h : (x >>= f) = .ok b) : ∃ a, x = .ok a ∧ f a = .ok b := by
  cases x with
  | ok a => exact ⟨a, rfl, h⟩
  | error e => simp [Bind.bind, Except.bind] at h

theorem exceptPure_ok {α : Type} {a b : α}
    (h : (pure a : Except RunError α) = .ok b) : a = b := by
  simpa [pure, Except.pure] using h

theorem tsvRecord_name (row : TsvRow) :
    (tsvRecord row).name =
      if !is_valid_data row.first && is_valid_data row.last then none
      else some (joinSpace (([row.first, row.middle, row.last]).filter is_valid_data)) := by
  simp only [tsvRecord]
  split_ifs <;> rfl

theorem tsvRecord_organization (row : TsvRow) :
    (tsvRecord row).organization =
      if !is_valid_data row.first && is_valid_data row.last then some row.last
      else none := by
  simp only [tsvRecord]
  split_ifs <;> rfl

theorem tsvRecord_street (row : TsvRow) :
    (tsvRecord row).street =
      if is_valid_data row.address then some row.address else none := by
  simp only [tsvRecord]
  split_ifs <;> rfl

theorem tsvRecord_city (row : TsvRow) :
    (tsvRecord row).city =
      if is_valid_data row.city then some row.city else none := by
  simp only [tsvRecord]
  split_ifs <;> rfl

theorem tsvRecord_county (row : TsvRow) :
    (tsvRecord row).county =
      if is_valid_data row.county then some row.county else none := by
  simp only [tsvRecord]
  split_ifs <;> rfl

theorem tsvRecord_state (row : TsvRow) :
    (tsvRecord row).state =
      if is_valid_data row.state then some row.state else none := by
  simp only [tsvRecord]
  split_ifs <;> rfl

theorem tsvRecord_zip (row : TsvRow) :
    (tsvRecord row).zip =
      (if is_valid_data row.zip then
        some (if is_valid_data row.zip4 then row.zip ++ "-" ++ row.zip4 else row.zip)
      else none) := by
  simp only [tsvRecord]
  split_ifs <;> rfl

theorem toList_ne_nil {s : String} (h : s ≠ "") : s.toList ≠ [] := by
  intro hl
  apply h
  cases s with
  | mk data =>
    simp only [String.toList] at hl
    simp [hl]

theorem ne_empty_of_toList_ne_nil {s : String} (h : s.toList ≠ []) : s ≠ "" := by
  intro hs
  subst hs
  simp at h

theorem mem_dropWhile_of_neg {p : Char → Bool} {c : Char} (hc : p c = false) :
    ∀ {l : List Char}, c ∈ l → c ∈ l.dropWhile p := by
  intro l
  induction l with
  | nil => intro h; exact absurd h (List.not_mem_nil c)
  | cons x xs ih =>
    intro h
    by_cases hx : p x = true
    · rw [List.dropWhile_cons_of_pos hx]
      rcases List.mem_cons.mp h with rfl | h2
      · rw [hc] at hx; exact absurd hx (by simp)
      · exact ih h2
    · rw [List.dropWhile_cons_of_neg hx]
      exact h

theorem mem_dropTrailing_of_neg {p : Char → Bool} {c : Char} (hc : p c = false)
    {l : List Char} (h : c ∈ l) : c ∈ dropTrailing p l := by
  unfold dropTrailing
  rw [List.mem_reverse]
  exact mem_dropWhile_of_neg hc (List.mem_reverse.mpr h)

theorem mem_pyStripList {c : Char} {l : List Char} (hc : isPySpace c = false)
    (h : c ∈ l) : c ∈ pyStripList l :=
  mem_dropTrailing_of_neg hc (mem_dropWhile_of_neg hc h)

theorem pyStrip_ne_empty {s : String} {c : Char} (hmem : c ∈ s.toList)
    (hc : isPySpace c = false) : pyStrip s ≠ "" := by
  apply ne_empty_of_toList_ne_nil
  show pyStripList s.toList ≠ []
  exact List.ne_nil_of_mem (mem_pyStripList hc hmem)

theorem char_ne_space_of_not_pyspace {c : Char} (hc : isPySpace c = false) : c ≠ ' ' := by
  intro h
  subst h
  simp [isPySpace] at hc

theorem char_ne_tab_of_not_pyspace {c : Char} (hc : isPySpace c = false) : c ≠ '\t' := by
  intro h
  subst h
  simp [isPySpace] at hc

theorem rstripSpaceHyphen_ne_empty {s : String} {c : Char} (hmem : c ∈ s.toList)
    (hsp : isPySpace c = false) (hhy : c ≠ '-') :
    rstripSet [' ', '-'] (pyStrip s) ≠ "" := by
  apply ne_empty_of_toList_ne_nil
  show dropTrailing (([' ', '-'].contains ·)) (pyStrip s).toList ≠ []
  exact List.ne_nil_of_mem
    (mem_dropTrailing_of_neg (c := c)
      (by simp [char_ne_space_of_not_pyspace hsp, hhy])
      (mem_pyStripList hsp hmem))

theorem format_zip_ne_empty {z : String} {c : Char} (hmem : c ∈ z.toList)
    (hsp : isPySpace c = false) (hhy : c ≠ '-') : format_zip z ≠ "" := by
  unfold format_zip
  apply pyStrip_ne_empty (c := c) _ hsp
  show c ∈ dropTrailing (· == '-') (pyStrip z).toList
  apply mem_dropTrailing_of_neg (by simp [hhy])
  exact mem_pyStripList hsp hmem

theorem string_append_toList (s t : String) : (s ++ t).toList = s.toList ++ t.toList := by
  simp [String.toList, String.data_append]

theorem is_valid_data_iff {v : String} : is_valid_data v = true ↔ v ≠ "N/A" ∧ v ≠ "" := by
  simp [is_valid_data, not_or]

theorem space_mem_joinSpace (a b : String) (t : List String) :
    ' ' ∈ (joinSpace (a :: b :: t)).toList := by
  show ' ' ∈ (a ++ " " ++ joinSpace (b :: t)).toList
  rw [string_append_toList, string_append_toList]
  simp

theorem joinSpace_ne_NA {parts : List String}
    (h : ∀ p ∈ parts, is_valid_data p = true) : joinSpace parts ≠ "N/A" := by
  match parts with
  | [] => decide
  | [p] =>
    have hp := (is_valid_data_iff.mp (h p (by simp))).1
    simpa [joinSpace] using hp
  | a :: b :: t =>
    intro heq
    have hsp := space_mem_joinSpace a b t
    rw [heq] at hsp
    exact absurd hsp (by decide)

theorem joinSpace_ne_empty {parts : List String} (hne : parts ≠ [])
    (h : ∀ p ∈ parts, p ≠ "") : joinSpace parts ≠ "" := by
  match parts with
  | [] => exact absurd rfl hne
  | [p] => simpa [joinSpace] using h p (by simp)
  | a :: b :: t =>
    apply ne_empty_of_toList_ne_nil
    exact List.ne_nil_of_mem (space_mem_joinSpace a b t)

theorem concat_hyphen_ne_NA (x y : String) : x ++ "-" ++ y ≠ "N/A" := by
  intro h
  have hm : '-' ∈ (x ++ "-" ++ y).toList := by
    rw [string_append_toList, string_append_toList]
    simp
  rw [h] at hm
  exact absurd hm (by decide)

theorem concat_hyphen_ne_empty (x y : String) : x ++ "-" ++ y ≠ "" := by
  apply ne_empty_of_toList_ne_nil
  rw [string_append_toList, string_append_toList]
  apply List.ne_nil_of_mem (a := '-')
  simp

theorem tsvRecord_values (row : TsvRow) :
    (∀ v, (tsvRecord row).organization = some v → v ≠ "" ∧ v ≠ "N/A") ∧
    (∀ v, (tsvRecord row).street = some v → v ≠ "" ∧ v ≠ "N/A") ∧
    (∀ v, (tsvRecord row).city = some v → v ≠ "" ∧ v ≠ "N/A") ∧
    (∀ v, (tsvRecord row).county = some v → v ≠ "" ∧ v ≠ "N/A") ∧
    (∀ v, (tsvRecord row).state = some v → v ≠ "" ∧ v ≠ "N/A") ∧
    (∀ v, (tsvRecord row).zip = some v → v ≠ "" ∧ v ≠ "N/A") ∧
    (∀ v, (tsvRecord row).name = some v → v ≠ "N/A") ∧
    ((tsvRecord row).name = some "" →
      is_valid_data row.first = false ∧ is_valid_data row.middle = false ∧
        is_valid_data row.last = false) := by
  refine ⟨?_, ?_, ?_, ?_, ?_, ?_, ?_, ?_⟩
  · intro v hv
    rw [tsvRecord_organization] at hv
    by_cases hc : (!is_valid_data row.first && is_valid_data row.last) = true
    · rw [if_pos hc] at hv
      have hc2 := hc
      rw [Bool.and_eq_true] at hc2
      have hlast := hc2.2
      obtain ⟨h1, h2⟩ := is_valid_data_iff.mp hlast
      cases hv
      exact ⟨h2, h1⟩
    · rw [if_neg hc] at hv
      cases hv
  · intro v hv
    rw [tsvRecord_street] at hv
    by_cases hc : is_valid_data row.address = true
    · rw [if_pos hc] at hv
      obtain ⟨h1, h2⟩ := is_valid_data_iff.mp hc
      cases hv
      exact ⟨h2, h1⟩
    · rw [if_neg hc] at hv
      cases hv
  · intro v hv
    rw [tsvRecord_city] at hv
    by_cases hc : is_valid_data row.city = true
    · rw [if_pos hc] at hv
      obtain ⟨h1, h2⟩ := is_valid_data_iff.mp hc
      cases hv
      exact ⟨h2, h1⟩
    · rw [if_neg hc] at hv
      cases hv
  · intro v hv
    rw [tsvRecord_county] at hv
    by_cases hc : is_valid_data row.county = true
    · rw [if_pos hc] at hv
      obtain ⟨h1, h2⟩ := is_valid_data_iff.mp hc
      cases hv
      exact ⟨h2, h1⟩
    · rw [if_neg hc] at hv
      cases hv
  · intro v hv
    rw [tsvRecord_state] at hv
    by_cases hc : is_valid_data row.state = true
    · rw [if_pos hc] at hv
      obtain ⟨h1, h2⟩ := is_valid_data_iff.mp hc
      cases hv
      exact ⟨h2, h1⟩
    · rw [if_neg hc] at hv
      cases hv
  · intro v hv
    rw [tsvRecord_zip] at hv
    by_cases hc : is_valid_data row.zip = true
    · rw [if_pos hc] at hv
      obtain ⟨h1, h2⟩ := is_valid_data_iff.mp hc
      by_cases hc4 : is_valid_data row.zip4 = true
      · rw [if_pos hc4] at hv
        cases hv
        exact ⟨concat_hyphen_ne_empty _ _, concat_hyphen_ne_NA _ _⟩
      · rw [if_neg hc4] at hv
        cases hv
        exact ⟨h2, h1⟩
    · rw [if_neg hc] at hv
      cases hv
  · intro v hv
    rw [tsvRecord_name] at hv
    by_cases hc : (!is_valid_data row.first && is_valid_data row.last) = true
    · rw [if_pos hc] at hv
      cases hv
    · rw [if_neg hc] at hv
      cases hv
      exact joinSpace_ne_NA (fun p hp => (List.mem_filter.mp hp).2)
  · intro hv
    rw [tsvRecord_name] at hv
    by_cases hc : (!is_valid_data row.first && is_valid_data row.last) = true
    · rw [if_pos hc] at hv
      cases hv
    · rw [if_neg hc] at hv
      have hj : joinSpace (([row.first, row.middle, row.last]).filter is_valid_data) = "" := by
        injection hv
      have hnil : ([row.first, row.middle, row.last]).filter is_valid_data = [] := by
        by_contra hne
        exact joinSpace_ne_empty hne
          (fun p hp => (is_valid_data_iff.mp (List.mem_filter.mp hp).2).2) hj
      have hall := List.filter_eq_nil_iff.mp hnil
      refine ⟨?_, ?_, ?_⟩
      · simpa using hall row.first (by simp)
      · simpa using hall row.middle (by simp)
      · simpa using hall row.last (by simp)

theorem parse_tsv_ok_mem {path : String} {file : TsvFile} {recs : List Record}
    (hok : parse_tsv path file = .ok recs) {r : Record} (hr : r ∈ recs) :
    ∃ row ∈ file.rows, tsvRecord row = r := by
  unfold parse_tsv at hok
  by_cases hmiss : (check_tsv_format file.headers EXPECTED_HEADERS).isEmpty = true
  · rw [if_pos hmiss] at hok
    cases hok
    exact List.mem_map.mp hr
  · rw [if_neg hmiss] at hok
    cases hok

theorem xmlNameStep_ok {e : XmlEntry} {r rr : Record} (h : xmlNameStep e r = .ok rr) :
    rr = r ∨ ∃ s, s ≠ "" ∧ rr = { r with name := some s } := by
  unfold xmlNameStep at h
  cases hn : e.name with
  | none =>
    rw [hn] at h
    left
    exact (Except.ok.inj h).symm
  | some text =>
    rw [hn] at h
    cases text with
    | none => simp [pyStripText, Bind.bind, Except.bind] at h
    | some t =>
      simp only [pyStripText, Bind.bind, Except.bind, pure, Except.pure] at h
      by_cases hs : pyStrip t = ""
      · left
        rw [if_neg (by simp [hs])] at h
        exact (Except.ok.inj h).symm
      · right
        rw [if_pos hs] at h
        exact ⟨pyStrip t, hs, (Except.ok.inj h).symm⟩

theorem xmlCompanyStep_ok {e : XmlEntry} {r rr : Record} (h : xmlCompanyStep e r = .ok rr) :
    rr = r ∨ ∃ s, s ≠ "" ∧ rr = { r with organization := some s } := by
  unfold xmlCompanyStep at h
  cases hn : e.company with
  | none =>
    rw [hn] at h
    left
    exact (Except.ok.inj h).symm
  | some text =>
    rw [hn] at h
    cases text with
    | none => simp [pyStripText, Bind.bind, Except.bind] at h
    | some t =>
      simp only [pyStripText, Bind.bind, Except.bind, pure, Except.pure] at h
      by_cases hs : pyStrip t = ""
      · left
        rw [if_neg (by simp [hs])] at h
        exact (Except.ok.inj h).symm
      · right
        rw [if_pos hs] at h
        exact ⟨pyStrip t, hs, (Except.ok.inj h).symm⟩

theorem xmlStreetStep_ok {e : XmlEntry} {r rr : Record} (h : xmlStreetStep e r = .ok rr) :
    rr = r ∨ ∃ v, v ≠ "" ∧ rr = { r with street := some v } := by
  unfold xmlStreetStep at h
  cases hp : streetTexts [e.street, e.street_2, e.street_3] with
  | error er =>
    rw [hp] at h
    simp [Bind.bind, Except.bind] at h
  | ok parts =>
    rw [hp] at h
    simp only [Bind.bind, Except.bind, pure, Except.pure] at h
    by_cases hj : joinSpace parts = ""
    · left
      rw [if_neg (by simp [hj])] at h
      exact (Except.ok.inj h).symm
    · right
      rw [if_pos hj] at h
      exact ⟨joinSpace parts, hj, (Except.ok.inj h).symm⟩

theorem xmlCityStep_spec (e : XmlEntry) (r : Record) :
    xmlCityStep e r = r ∨
      ∃ s, s ≠ "" ∧ xmlCityStep e r = { r with city := some s } := by
  unfold xmlCityStep
  cases e.city with
  | none => left; rfl
  | some text =>
    cases text with
    | none => left; rfl
    | some s =>
      by_cases hs : s = ""
      · left; simp [hs]
      · right; exact ⟨s, hs, by simp [hs]⟩

theorem xmlStateStep_spec (e : XmlEntry) (r : Record) :
    xmlStateStep e r = r ∨
      ∃ s, s ≠ "" ∧ xmlStateStep e r = { r with state := some s } := by
  unfold xmlStateStep
  cases e.state with
  | none => left; rfl
  | some text =>
    cases text with
    | none => left; rfl
    | some s =>
      by_cases hs : s = ""
      · left; simp [hs]
      · right; exact ⟨s, hs, by simp [hs]⟩

theorem xmlZipStep_spec (e : XmlEntry) (r : Record) :
    xmlZipStep e r = r ∨
      ∃ s, e.postal_code = some (some s) ∧ s ≠ "" ∧
        xmlZipStep e r = { r with zip := some (rstripSet [' ', '-'] (pyStrip s)) } := by
  unfold xmlZipStep
  cases hp : e.postal_code with
  | none => left; rfl
  | some text =>
    cases text with
    | none => left; rfl
    | some s =>
      by_cases hs : s = ""
      · left; simp [hs]
      · right; exact ⟨s, rfl, hs, by simp [hs]⟩

theorem xmlNameStep_pres {e : XmlEntry} {r rr : Record} (h : xmlNameStep e r = .ok rr) :
    rr.organization = r.organization ∧ rr.street = r.street ∧ rr.city = r.city ∧
    rr.state = r.state ∧ rr.zip = r.zip := by
  rcases xmlNameStep_ok h with rfl | ⟨s, _, rfl⟩ <;> exact ⟨rfl, rfl, rfl, rfl, rfl⟩

theorem xmlCompanyStep_pres {e : XmlEntry} {r rr : Record} (h : xmlCompanyStep e r = .ok rr) :
    rr.name = r.name ∧ rr.street = r.street ∧ rr.city = r.city ∧
    rr.state = r.state ∧ rr.zip = r.zip := by
  rcases xmlCompanyStep_ok h with rfl | ⟨s, _, rfl⟩ <;> exact ⟨rfl, rfl, rfl, rfl, rfl⟩

theorem xmlStreetStep_pres {e : XmlEntry} {r rr : Record} (h : xmlStreetStep e r = .ok rr) :
    rr.name = r.name ∧ rr.organization = r.organization ∧ rr.city = r.city ∧
    rr.state = r.state ∧ rr.zip = r.zip := by
  rcases xmlStreetStep_ok h with rfl | ⟨s, _, rfl⟩ <;> exact ⟨rfl, rfl, rfl, rfl, rfl⟩

theorem xmlCityStep_pres (e : XmlEntry) (r : Record) :
    (xmlCityStep e r).name = r.name ∧ (xmlCityStep e r).organization = r.organization ∧
    (xmlCityStep e r).street = r.street ∧ (xmlCityStep e r).state = r.state ∧
    (xmlCityStep e r).zip = r.zip := by
  rcases xmlCityStep_spec e r with hc | ⟨s, _, hc⟩ <;> rw [hc] <;> exact ⟨rfl, rfl, rfl, rfl, rfl⟩

theorem xmlStateStep_pres (e : XmlEntry) (r : Record) :
    (xmlStateStep e r).name = r.name ∧ (xmlStateStep e r).organization = r.organization ∧
    (xmlStateStep e r).street = r.street ∧ (xmlStateStep e r).city = r.city ∧
    (xmlStateStep e r).zip = r.zip := by
  rcases xmlStateStep_spec e r with hc | ⟨s, _, hc⟩ <;> rw [hc] <;> exact ⟨rfl, rfl, rfl, rfl, rfl⟩

theorem xmlZipStep_pres (e : XmlEntry) (r : Record) :
    (xmlZipStep e r).name = r.name ∧ (xmlZipStep e r).organization = r.organization ∧
    (xmlZipStep e r).street = r.street ∧ (xmlZipStep e r).city = r.city ∧
    (xmlZipStep e r).state = r.state := by
  rcases xmlZipStep_spec e r with hc | ⟨s, _, _, hc⟩ <;> rw [hc] <;> exact ⟨rfl, rfl, rfl, rfl, rfl⟩

theorem xmlEntryRecord_fields {e : XmlEntry} {r : Record} (h : xmlEntryRecord e = .ok r) :
    (∀ v, r.name = some v → v ≠ "") ∧
    (∀ v, r.organization = some v → v ≠ "") ∧
    (∀ v, r.street = some v → v ≠ "") ∧
    (∀ v, r.city = some v → v ≠ "") ∧
    (∀ v, r.state = some v → v ≠ "") ∧
    (∀ v, r.zip = some v → ∃ s, e.postal_code = some (some s) ∧ s ≠ "" ∧
      v = rstripSet [' ', '-'] (pyStrip s)) := by
  unfold xmlEntryRecord at h
  obtain ⟨r1, h1, h⟩ := exceptBind_ok h
  obtain ⟨r2, h2, h⟩ := exceptBind_ok h
  obtain ⟨r3, h3, h⟩ := exceptBind_ok h
  have hr := exceptPure_ok h
  subst hr
  obtain ⟨zn, zo, zs, zc, zst⟩ := xmlZipStep_pres e (xmlStateStep e (xmlCityStep e r3))
  obtain ⟨sn, so, ss, sc, sz⟩ := xmlStateStep_pres e (xmlCityStep e r3)
  obtain ⟨cn, co, cs, cst, cz⟩ := xmlCityStep_pres e r3
  obtain ⟨tn, to2, tc, tst, tz⟩ := xmlStreetStep_pres h3
  obtain ⟨pn, ps, pc, pst, pz⟩ := xmlCompanyStep_pres h2
  obtain ⟨qo, qs, qc, qst, qz⟩ := xmlNameStep_pres h1
  refine ⟨?_, ?_, ?_, ?_, ?_, ?_⟩
  · intro v hv
    rw [zn, sn, cn, tn, pn] at hv
    rcases xmlNameStep_ok h1 with rfl | ⟨s1, hs1, rfl⟩
    · exact absurd hv (by simp)
    · cases Option.some.inj hv
      exact hs1
  · intro v hv
    rw [zo, so, co, to2] at hv
    rcases xmlCompanyStep_ok h2 with rfl | ⟨s2, hs2, rfl⟩
    · rw [qo] at hv
      exact absurd hv (by simp)
    · cases Option.some.inj hv
      exact hs2
  · intro v hv
    rw [zs, ss, cs] at hv
    rcases xmlStreetStep_ok h3 with rfl | ⟨s3, hs3, rfl⟩
    · rw [ps, qs] at hv
      exact absurd hv (by simp)
    · cases Option.some.inj hv
      exact hs3
  · intro v hv
    rw [zc, sc] at hv
    rcases xmlCityStep_spec e r3 with hc | ⟨s4, hs4, hc⟩
    · rw [hc, tc, pc, qc] at hv
      exact absurd hv (by simp)
    · rw [hc] at hv
      cases Option.some.inj hv
      exact hs4
  · intro v hv
    rw [zst] at hv
    rcases xmlStateStep_spec e (xmlCityStep e r3) with hst | ⟨s5, hs5, hst⟩
    · rw [hst, cst, tst, pst, qst] at hv
      exact absurd hv (by simp)
    · rw [hst] at hv
      cases Option.some.inj hv
      exact hs5
  · intro v hv
    rcases xmlZipStep_spec e (xmlStateStep e (xmlCityStep e r3)) with hz | ⟨s6, hp6, hs6, hz⟩
    · rw [hz, sz, cz, tz, pz, qz] at hv
      exact absurd hv (by simp)
    · rw [hz] at hv
      cases Option.some.inj hv
      exact ⟨s6, hp6, hs6, rfl⟩

theorem xmlEntriesLoop_ok_mem :
    ∀ {entries : List XmlEntry} {recs : List Record},
    xmlEntriesLoop entries = .ok recs →
    ∀ r ∈ recs, ∃ e ∈ entries, xmlEntryRecord e = .ok r := by
  intro entries
  induction entries with
  | nil =>
    intro recs h r hr
    simp only [xmlEntriesLoop] at h
    cases h
    exact absurd hr (List.not_mem_nil r)
  | cons e rest ih =>
    intro recs h r hr
    simp only [xmlEntriesLoop] at h
    obtain ⟨r1, h1, h⟩ := exceptBind_ok h
    obtain ⟨rs, hrest, h⟩ := exceptBind_ok h
    have := exceptPure_ok h
    subst this
    rcases List.mem_cons.mp hr with rfl | hr2
    · exact ⟨e, by simp, h1⟩
    · obtain ⟨e2, he2, hok2⟩ := ih hrest r hr2
      exact ⟨e2, by simp [he2], hok2⟩

theorem parse_xml_ok_mem {path : String} {doc : XmlDoc} {recs : List Record}
    (hok : parse_xml path doc = .ok recs) {r : Record} (hr : r ∈ recs) :
    ∃ e ∈ doc.entries, xmlEntryRecord e = .ok r := by
  unfold parse_xml at hok
  by_cases hmiss : (check_xml_format doc EXPERCTED_TAGS).isEmpty = true
  · rw [if_pos hmiss] at hok
    exact xmlEntriesLoop_ok_mem hok r hr
  · rw [if_neg hmiss] at hok
    cases hok

theorem dropWhile_shape {p : Char → Bool} :
    ∀ l : List Char, l.dropWhile p = [] ∨
      ∃ c t, l.dropWhile p = c :: t ∧ p c = false := by
  intro l
  induction l with
  | nil => left; rfl
  | cons x xs ih =>
    by_cases hx : p x = true
    · rw [List.dropWhile_cons_of_pos hx]
      exact ih
    · rw [List.dropWhile_cons_of_neg hx]
      exact Or.inr ⟨x, xs, rfl, by simpa using hx⟩

theorem dropWhile_append_singleton {p : Char → Bool} {c : Char} (hc : p c = false) :
    ∀ xs : List Char, (xs ++ [c]).dropWhile p = xs.dropWhile p ++ [c] := by
  intro xs
  induction xs with
  | nil => simp [List.dropWhile, hc]
  | cons x t ih =>
    by_cases hx : p x = true
    · rw [List.cons_append, List.dropWhile_cons_of_pos hx, List.dropWhile_cons_of_pos hx]
      exact ih
    · rw [List.cons_append, List.dropWhile_cons_of_neg hx, List.dropWhile_cons_of_neg hx,
        List.cons_append]

theorem dropTrailing_cons_head {p : Char → Bool} {c : Char} (hc : p c = false)
    (t : List Char) : ∃ t2, dropTrailing p (c :: t) = c :: t2 := by
  unfold dropTrailing
  rw [List.reverse_cons, dropWhile_append_singleton hc, List.reverse_append]
  exact ⟨(t.reverse.dropWhile p).reverse, rfl⟩

theorem pyStripList_shape (l : List Char) :
    pyStripList l = [] ∨ ∃ c t, pyStripList l = c :: t ∧ isPySpace c = false := by
  unfold pyStripList
  rcases dropWhile_shape (p := isPySpace) l with h | ⟨c, t, h, hc⟩
  · rw [h]
    left
    rfl
  · rw [h]
    obtain ⟨t2, ht2⟩ := dropTrailing_cons_head hc t
    exact Or.inr ⟨c, t2, ht2, hc⟩

theorem asString_toList (s : String) : s.toList.asString = s := by
  cases s
  rfl

theorem lstripTab_pyStrip (raw : String) :
    lstripChar '\t' (pyStrip raw) = pyStrip raw := by
  unfold lstripChar
  have htl : (pyStrip raw).toList = pyStripList raw.toList := rfl
  rw [htl]
  rcases pyStripList_shape raw.toList with h | ⟨c, t, h, hc⟩
  · rw [h]
    show ([] : List Char).asString = pyStrip raw
    unfold pyStrip
    rw [h]
  · rw [h]
    rw [List.dropWhile_cons_of_neg (by simp [char_ne_tab_of_not_pyspace hc])]
    conv_rhs => rw [← asString_toList (pyStrip raw)]
    rw [htl, h]

theorem getD_mem {l : List String} {n : Nat} (h : n < l.length) : l.getD n "" ∈ l := by
  rw [List.getD_eq_getElem l "" h]
  exact List.getElem_mem h

theorem getLastD_mem {l : List String} (h : l ≠ []) : l.getLastD "" ∈ l := by
  cases l with
  | nil => exact absurd rfl h
  | cons x xs =>
    rw [List.getLastD_cons]
    exact List.getLastD_mem_cons xs x

theorem pieceAt1_ok {l : List String} {x : String} (h : pieceAt1 l = .ok x) :
    ∃ a t, l = a :: x :: t := by
  cases l with
  | nil => simp [pieceAt1] at h
  | cons a rest =>
    cases rest with
    | nil => simp [pieceAt1] at h
    | cons b t =>
      simp only [pieceAt1] at h
      cases h
      exact ⟨a, t, rfl⟩

theorem rsplitOnce_length (sep : Char) (s : String) : (rsplitOnce sep s).length ≤ 2 := by
  unfold rsplitOnce
  cases rsplitOnceList sep s.toList with
  | none => simp
  | some p => simp

theorem txtEntriesLoop_ok_mem {path : String} :
    ∀ {ents : List (List String)} {ln : Nat} {recs : List Record},
    txtEntriesLoop path ln ents = .ok recs →
    ∀ r ∈ recs, ∃ lines ∈ ents,
      (3 ≤ lines.length ∧ lines.length ≤ 4) ∧ txtEntryRecord lines = .ok r := by
  intro ents
  induction ents with
  | nil =>
    intro ln recs h r hr
    simp only [txtEntriesLoop] at h
    cases h
    exact absurd hr (List.not_mem_nil r)
  | cons lines rest ih =>
    intro ln recs h r hr
    simp only [txtEntriesLoop] at h
    by_cases hcond : (decide (lines.length < 3) || decide (lines.length > 4)) = true
    · rw [if_pos hcond] at h
      cases h
    · rw [if_neg hcond] at h
      obtain ⟨r1, h1, h⟩ := exceptBind_ok h
      obtain ⟨rs, hrest, h⟩ := exceptBind_ok h
      have := exceptPure_ok h
      subst this
      have hlen : 3 ≤ lines.length ∧ lines.length ≤ 4 := by
        simp only [Bool.or_eq_true, decide_eq_true_eq] at hcond
        omega
      rcases List.mem_cons.mp hr with rfl | hr2
      · exact ⟨lines, by simp, hlen, h1⟩
      · obtain ⟨l2, hl2, hlen2, hok2⟩ := ih hrest r hr2
        exact ⟨l2, by simp [hl2], hlen2, hok2⟩

theorem parse_txt_ok_mem {path content : String} {recs : List Record}
    (hok : parse_txt path content = .ok recs) {r : Record} (hr : r ∈ recs) :
    ∃ lines ∈ txtEntries content,
      (3 ≤ lines.length ∧ lines.length ≤ 4) ∧ txtEntryRecord lines = .ok r := by
  unfold parse_txt at hok
  exact txtEntriesLoop_ok_mem hok r hr

theorem txtEntries_mem_lines {content : String} {lines : List String}
    (h : lines ∈ txtEntries content) :
    ∀ l ∈ lines, l ≠ "" ∧ ∃ raw, l = pyStrip raw := by
  unfold txtEntries at h
  obtain ⟨entry, _, rfl⟩ := List.mem_map.mp h
  intro l hl
  unfold entryLines at hl
  have hf := List.mem_filter.mp hl
  obtain ⟨raw, _, rfl⟩ := List.mem_map.mp hf.1
  refine ⟨?_, raw, rfl⟩
  simpa using hf.2

theorem txtEntryRecord_ok {lines : List String} {r : Record}
    (h : txtEntryRecord lines = .ok r) :
    ∃ c sz st z,
      rsplitOnce ',' (lstripChar '\t' (lines.getLastD "")) = [c, sz] ∧
      rsplitOnce ' ' sz = [st, z] ∧
      r = { name := some (lstripChar '\t' (lines.getD 0 "")),
            street := some (lstripChar '\t' (lines.getD 1 "")),
            county := if lines.length == 4 then some (lstripChar '\t' (lines.getD 2 ""))
              else none,
            city := some (pyStrip c), state := some (pyStrip st),
            zip := some (format_zip z) } := by
  unfold txtEntryRecord at h
  obtain ⟨second, hsec, h⟩ := exceptBind_ok h
  obtain ⟨rawZip, hraw, h⟩ := exceptBind_ok h
  have hr := exceptPure_ok h
  obtain ⟨c, t1, hsplit1⟩ := pieceAt1_ok hsec
  obtain ⟨st, t2, hsplit2⟩ := pieceAt1_ok hraw
  have hlen1 := rsplitOnce_length ',' (lstripChar '\t' (lines.getLastD ""))
  rw [hsplit1] at hlen1
  have ht1 : t1 = [] := by
    simp only [List.length_cons] at hlen1
    rw [← List.length_eq_zero]
    omega
  subst ht1
  have hlen2 := rsplitOnce_length ' ' second
  rw [hsplit2] at hlen2
  have ht2 : t2 = [] := by
    simp only [List.length_cons] at hlen2
    rw [← List.length_eq_zero]
    omega
  subst ht2
  refine ⟨c, second, st, rawZip, hsplit1, hsplit2, ?_⟩
  rw [← hr, hsplit1, hsplit2]
  rfl

theorem txtEntryRecord_values {lines : List String} {r : Record}
    (h : txtEntryRecord lines = .ok r)
    (hlen : 3 ≤ lines.length ∧ lines.length ≤ 4)
    (hmem : ∀ l ∈ lines, l ≠ "" ∧ ∃ raw, l = pyStrip raw)
    (hgood : LastLineGood lines) :
    (∀ v, r.name = some v → v ≠ "") ∧
    (∀ v, r.street = some v → v ≠ "") ∧
    (∀ v, r.county = some v → v ≠ "") ∧
    (∀ v, r.city = some v → v ≠ "") ∧
    (∀ v, r.state = some v → v ≠ "") ∧
    (∀ v, r.zip = some v → v ≠ "") := by
  obtain ⟨c, sz, st, z, hsplit1, hsplit2, rfl⟩ := txtEntryRecord_ok h
  obtain ⟨c2, sz2, st2, z2, hsplit1g, hsplit2g, hc2, hst2, ch, hch, hchs, hchh⟩ := hgood
  rw [hsplit1] at hsplit1g
  obtain ⟨rfl, rfl⟩ : c2 = c ∧ sz2 = sz := by
    have h1 := List.cons.inj hsplit1g.symm
    exact ⟨h1.1, (List.cons.inj h1.2).1⟩
  rw [hsplit2] at hsplit2g
  obtain ⟨rfl, rfl⟩ : st2 = st ∧ z2 = z := by
    have h1 := List.cons.inj hsplit2g.symm
    exact ⟨h1.1, (List.cons.inj h1.2).1⟩
  have lineNe : ∀ n, n < lines.length → lstripChar '\t' (lines.getD n "") ≠ "" := by
    intro n hn
    obtain ⟨hne, raw, hraw⟩ := hmem (lines.getD n "") (getD_mem hn)
    rw [hraw, lstripTab_pyStrip]
    rw [hraw] at hne
    exact hne
  refine ⟨?_, ?_, ?_, ?_, ?_, ?_⟩
  · intro v hv
    cases Option.some.inj hv
    exact lineNe 0 (by omega)
  · intro v hv
    cases Option.some.inj hv
    exact lineNe 1 (by omega)
  · intro v hv
    by_cases h4 : (lines.length == 4) = true
    · rw [if_pos h4] at hv
      cases Option.some.inj hv
      have : lines.length = 4 := by simpa using h4
      exact lineNe 2 (by omega)
    · rw [if_neg h4] at hv
      cases hv
  · intro v hv
    cases Option.some.inj hv
    exact hc2
  · intro v hv
    cases Option.some.inj hv
    exact hst2
  · intro v hv
    cases Option.some.inj hv
    exact format_zip_ne_empty hch hchs hchh

/-! ## Claims -/

/-- Counterexample to claim C1 as stated: a tabular input with a complete
header row (no missing headers, so the file passes format validation) whose
single row has every field equal to the missing-data sentinel emits a record
whose `name` key maps to the empty string. -/
theorem claim_C1_counterexample :
    check_tsv_format tsvFileAllNA.headers EXPECTED_HEADERS = [] ∧
    parse_tsv "input.tsv" tsvFileAllNA = .ok [{ name := some "" }] := by
  decide

/-- Claim C1 (amended): tabular records never hold `""` or `"N/A"` except
the `name` key, which never holds `"N/A"` but holds `""` when the row's
first, middle and last fields are all missing; markup records hold no empty
name, organization, street, city or state, and no empty zip provided each
textually present postal-code value has a character that is neither
whitespace nor a hyphen; block-text records hold no empty name, street or
county, and no empty city, state or zip provided every entry's last line is
well shaped with non-blank pieces. -/
theorem claim_C1_amended :
    (∀ path file recs, parse_tsv path file = .ok recs → ∀ r ∈ recs,
      (∀ v, r.organization = some v → v ≠ "" ∧ v ≠ "N/A") ∧
      (∀ v, r.street = some v → v ≠ "" ∧ v ≠ "N/A") ∧
      (∀ v, r.city = some v → v ≠ "" ∧ v ≠ "N/A") ∧
      (∀ v, r.county = some v → v ≠ "" ∧ v ≠ "N/A") ∧
      (∀ v, r.state = some v → v ≠ "" ∧ v ≠ "N/A") ∧
      (∀ v, r.zip = some v → v ≠ "" ∧ v ≠ "N/A") ∧
      (∀ v, r.name = some v → v ≠ "N/A") ∧
      (r.name = some "" → ∃ row ∈ file.rows,
        is_valid_data row.first = false ∧ is_valid_data row.middle = false ∧
          is_valid_data row.last = false)) ∧
    (∀ path doc recs, parse_xml path doc = .ok recs → ∀ r ∈ recs,
      (∀ v, r.name = some v → v ≠ "") ∧
      (∀ v, r.organization = some v → v ≠ "") ∧
      (∀ v, r.street = some v → v ≠ "") ∧
      (∀ v, r.city = some v → v ≠ "") ∧
      (∀ v, r.state = some v → v ≠ "") ∧
      ((∀ e ∈ doc.entries, ∀ s, e.postal_code = some (some s) →
          ∃ ch ∈ s.toList, isPySpace ch = false ∧ ch ≠ '-') →
        ∀ v, r.zip = some v → v ≠ "")) ∧
    (∀ path content recs, parse_txt path content = .ok recs →
      (∀ lines ∈ txtEntries content, LastLineGood lines) →
      ∀ r ∈ recs,
        (∀ v, r.name = some v → v ≠ "") ∧
        (∀ v, r.street = some v → v ≠ "") ∧
        (∀ v, r.county = some v → v ≠ "") ∧
        (∀ v, r.city = some v → v ≠ "") ∧
        (∀ v, r.state = some v → v ≠ "") ∧
        (∀ v, r.zip = some v → v ≠ "")) := by
  refine ⟨?_, ?_, ?_⟩
  · intro path file recs hok r hr
    obtain ⟨row, hrow, rfl⟩ := parse_tsv_ok_mem hok hr
    obtain ⟨ho, hs, hc, hco, hst, hz, hn, hne⟩ := tsvRecord_values row
    exact ⟨ho, hs, hc, hco, hst, hz, hn,
      fun hempty => ⟨row, hrow, hne hempty⟩⟩
  · intro path doc recs hok r hr
    obtain ⟨e, he, hok2⟩ := parse_xml_ok_mem hok hr
    obtain ⟨hn, ho, hs, hc, hst, hz⟩ := xmlEntryRecord_fields hok2
    refine ⟨hn, ho, hs, hc, hst, ?_⟩
    intro hpost v hv
    obtain ⟨s, hp, hsne, rfl⟩ := hz v hv
    obtain ⟨ch, hch, h1, h2⟩ := hpost e he s hp
    exact rstripSpaceHyphen_ne_empty hch h1 h2
  · intro path content recs hok hgood r hr
    obtain ⟨lines, hl, hlen, hok2⟩ := parse_txt_ok_mem hok hr
    exact txtEntryRecord_values hok2 hlen (txtEntries_mem_lines hl) (hgood lines hl)

/-- Witness for the amended C1: concrete runs of all three parsers whose
emitted values the theorem proves non-empty and non-sentinel. -/
theorem claim_C1_amended_witness :
    ("Acme" ≠ "" ∧ "Acme" ≠ "N/A") ∧ "12345" ≠ "" ∧ "20000" ≠ "" := by
  refine ⟨?_, ?_, ?_⟩
  · exact (claim_C1_amended.1 "i.tsv" tsvFileOrg [{ organization := some "Acme" }]
      (by decide) { organization := some "Acme" } (by decide)).1 "Acme" (by decide)
  · refine (claim_C1_amended.2.1 "i.xml" docFull
      [{ name := some "Jane", organization := some "Acme", street := some "1 A St x y",
         city := some "B", state := some "CC", zip := some "12345" }]
      (by decide)
      { name := some "Jane", organization := some "Acme", street := some "1 A St x y",
        city := some "B", state := some "CC", zip := some "12345" }
      (by decide)).2.2.2.2.2 ?_ "12345" (by decide)
    intro e he s hp
    simp only [docFull, List.mem_singleton] at he
    subst he
    have hs : s = "12345" := by
      exact Option.some.inj (Option.some.inj hp.symm)
    subst hs
    exact ⟨'1', by decide, by decide, by decide⟩
  · refine (claim_C1_amended.2.2 "b.txt" txtContentB
      [{ name := some "C", street := some "3 St", city := some "Z",
         state := some "CC", zip := some "20000" }]
      (by decide) ?_
      { name := some "C", street := some "3 St", city := some "Z",
        state := some "CC", zip := some "20000" }
      (by decide)).2.2.2.2.2 "20000" (by decide)
    intro lines hl
    have : lines = ["C", "3 St", "Z, CC 20000"] := by
      have hent : txtEntries txtContentB = [["C", "3 St", "Z, CC 20000"]] := by decide
      rw [hent] at hl
      simpa using hl
    subst this
    exact ⟨"Z", " CC 20000", " CC", "20000", by decide, by decide, by decide, by decide,
      '2', by decide, by decide, by decide⟩

/-- Claim C4: for every tabular data row, if the first field is missing data
(per the Field Validator) but the last field is present, the resulting record
has `organization` equal to the last field's value and no `name` key;
otherwise `name` is composed by joining with single spaces whichever of
first, middle, last pass the Field Validator, in that order. -/
theorem claim_C4 (row : TsvRow) :
    (is_valid_data row.first = false ∧ is_valid_data row.last = true →
      (tsvRecord row).organization = some row.last ∧ (tsvRecord row).name = none) ∧
    (¬(is_valid_data row.first = false ∧ is_valid_data row.last = true) →
      (tsvRecord row).name =
        some (joinSpace (([row.first, row.middle, row.last]).filter is_valid_data))) := by
  constructor
  · rintro ⟨h1, h2⟩
    rw [tsvRecord_organization, tsvRecord_name, h1, h2]
    simp
  · intro h
    have hc : (!is_valid_data row.first && is_valid_data row.last) = false := by
      cases hf : is_valid_data row.first <;> cases hl : is_valid_data row.last <;>
        simp_all
    rw [tsvRecord_name, hc]
    simp

/-- Witness for C4 at the row `first="N/A", last="Acme"`. -/
theorem claim_C4_witness :
    (tsvRecord rowOrg).organization = some "Acme" ∧ (tsvRecord rowOrg).name = none :=
  (claim_C4 rowOrg).1 (by decide)

/-- Claim C5: for every tabular data row, `zip` is the base zip when present,
with the zip4 suffix appended after a hyphen when that is also present, and
the record has no `zip` key when the base zip is absent, even if zip4 is
present. -/
theorem claim_C5 (row : TsvRow) :
    (tsvRecord row).zip =
      (if is_valid_data row.zip then
        some (if is_valid_data row.zip4 then row.zip ++ "-" ++ row.zip4 else row.zip)
      else none) :=
  tsvRecord_zip row

/-- Claim C6: for every markup entry with a textually present postal-code
child that parses to a record, the record's `zip` equals the postal-code
text trimmed and with trailing spaces and hyphens stripped. -/
theorem claim_C6 (e : XmlEntry) (s : String) (r : Record)
    (hp : e.postal_code = some (some s)) (hs : s ≠ "")
    (hok : xmlEntryRecord e = .ok r) :
    r.zip = some (rstripSet [' ', '-'] (pyStrip s)) := by
  unfold xmlEntryRecord at hok
  obtain ⟨r1, h1, hok⟩ := exceptBind_ok hok
  obtain ⟨r2, h2, hok⟩ := exceptBind_ok hok
  obtain ⟨r3, h3, hok⟩ := exceptBind_ok hok
  have hr := exceptPure_ok hok
  subst hr
  unfold xmlZipStep
  rw [hp]
  simp [hs]

/-- Witness for C6: the postal-code value `"  12345 - "` normalizes to
`"12345"`. -/
theorem claim_C6_witness :
    xmlEntryRecord xmlEntryPostal = .ok recordPostal ∧
    recordPostal.zip = some "12345" := by
  refine ⟨by decide, ?_⟩
  have h := claim_C6 xmlEntryPostal "  12345 - " recordPostal (by decide) (by decide)
    (by decide)
  rw [h]; decide

/-- Claim C7: a block-text entry of exactly 3 non-blank lines whose last
line splits on its last comma into a city part and a state-zip part, and
whose state-zip part splits on its last space, maps line 0 to `name`,
line 1 to `street`, and the split pieces to `city`, `state`, `zip`; with
4 lines, line 2 becomes `county`. -/
theorem claim_C7 :
    (∀ l0 l1 l2 c sz st z,
      rsplitOnce ',' (lstripChar '\t' l2) = [c, sz] →
      rsplitOnce ' ' sz = [st, z] →
      txtEntryRecord [l0, l1, l2] =
        .ok { name := some (lstripChar '\t' l0), street := some (lstripChar '\t' l1),
              city := some (pyStrip c), state := some (pyStrip st),
              zip := some (format_zip z) }) ∧
    (∀ l0 l1 l2 l3 c sz st z,
      rsplitOnce ',' (lstripChar '\t' l3) = [c, sz] →
      rsplitOnce ' ' sz = [st, z] →
      txtEntryRecord [l0, l1, l2, l3] =
        .ok { name := some (lstripChar '\t' l0), street := some (lstripChar '\t' l1),
              county := some (lstripChar '\t' l2),
              city := some (pyStrip c), state := some (pyStrip st),
              zip := some (format_zip z) }) := by
  constructor
  · intro l0 l1 l2 c sz st z h1 h2
    simp [txtEntryRecord, h1, h2, pieceAt1, Bind.bind, Except.bind, pure, Except.pure]
  · intro l0 l1 l2 l3 c sz st z h1 h2
    simp [txtEntryRecord, h1, h2, pieceAt1, Bind.bind, Except.bind, pure, Except.pure]

/-- Witness for C7 at the entry
`["Jane Doe", "123 Main St", "Springfield, IL 62704"]`. -/
theorem claim_C7_witness :
    txtEntryRecord ["Jane Doe", "123 Main St", "Springfield, IL 62704"] =
      .ok { name := some "Jane Doe", street := some "123 Main St",
            city := some "Springfield", state := some "IL", zip := some "62704" } := by
  have h := claim_C7.1 "Jane Doe" "123 Main St" "Springfield, IL 62704"
    "Springfield" " IL 62704" " IL" "62704" (by decide) (by decide)
  rw [h]; decide

theorem txtEntriesLoop_first_bad (path : String) (bad : List String)
    (hbad : bad.length < 3 ∨ bad.length > 4) (ln : Nat) (rest : List (List String)) :
    txtEntriesLoop path ln (bad :: rest) =
      .error (.formatError (txtErrMsg path (ln + 1) (ln + bad.length) bad.length)) := by
  have hcond : (decide (bad.length < 3) || decide (bad.length > 4)) = true := by
    rcases hbad with h | h <;> simp [h]
  simp only [txtEntriesLoop, hcond, if_true]
  have h1 : ln + bad.length + 1 - bad.length = ln + 1 := by omega
  have h2 : ln + bad.length + 1 - 1 = ln + bad.length := by omega
  rw [h1, h2]

theorem txtEntriesLoop_error (path : String) (bad : List String)
    (hbad : bad.length < 3 ∨ bad.length > 4) :
    ∀ (pre : List (List String)) (ln : Nat) (rest : List (List String)),
    (∀ ls ∈ pre, (3 ≤ ls.length ∧ ls.length ≤ 4) ∧ ∃ r, txtEntryRecord ls = .ok r) →
    txtEntriesLoop path ln (pre ++ bad :: rest) =
      .error (.formatError (txtErrMsg path (ln + lineCount pre + 1)
        (ln + lineCount pre + bad.length) bad.length)) := by
  intro pre
  induction pre with
  | nil =>
    intro ln rest _
    simpa [lineCount] using txtEntriesLoop_first_bad path bad hbad ln rest
  | cons head tail ih =>
    intro ln rest hpre
    obtain ⟨⟨hlen3, hlen4⟩, r, hr⟩ := hpre head (by simp)
    have hcond : (decide (head.length < 3) || decide (head.length > 4)) = false := by
      simp; omega
    have htail := ih (ln + head.length + 1) rest (fun ls hls => hpre ls (by simp [hls]))
    simp only [List.cons_append, txtEntriesLoop, hcond, Bool.false_eq_true, if_false,
      Bind.bind, hr, Except.bind, List.append_eq]
    rw [htail]
    have h1 : ln + head.length + 1 + lineCount tail + 1 = ln + lineCount (head :: tail) + 1 := by
      simp only [lineCount]; omega
    have h2 : ln + head.length + 1 + lineCount tail + bad.length =
        ln + lineCount (head :: tail) + bad.length := by
      simp only [lineCount]; omega
    rw [h1, h2]

/-- Claim C8: a block-text entry whose non-blank line count is not 3 or 4
makes the parser raise a format error whose message carries the
approximate source line range, so no record of that file is emitted. -/
theorem claim_C8 (path content : String) (pre rest : List (List String)) (bad : List String)
    (hsplit : txtEntries content = pre ++ bad :: rest)
    (hpre : ∀ ls ∈ pre, (3 ≤ ls.length ∧ ls.length ≤ 4) ∧ ∃ r, txtEntryRecord ls = .ok r)
    (hbad : bad.length < 3 ∨ bad.length > 4) :
    parse_txt path content =
      .error (.formatError (txtErrMsg path (lineCount pre + 1)
        (lineCount pre + bad.length) bad.length)) := by
  unfold parse_txt
  rw [hsplit]
  simpa using txtEntriesLoop_error path bad hbad pre 0 rest hpre

/-- Witness for C8: a file whose second entry has two non-blank lines fails
with the format error naming lines 5-6. -/
theorem claim_C8_witness :
    parse_txt "w.txt" "A\n1 St\nX, AA 30000\n\nBad\nonly two" =
      .error (.formatError (txtErrMsg "w.txt" 5 6 2)) := by
  have h := claim_C8 "w.txt" "A\n1 St\nX, AA 30000\n\nBad\nonly two"
    [["A", "1 St", "X, AA 30000"]] [] ["Bad", "only two"]
    (by decide)
    (by
      intro ls hls
      simp only [List.mem_singleton] at hls
      subst hls
      exact ⟨by decide,
        ⟨{ name := some "A", street := some "1 St", city := some "X",
           state := some "AA", zip := some "30000" }, by decide⟩⟩)
    (by decide)
  rw [h]
  decide

theorem strLeChars_total (a b : List Char) : strLeChars a b = true ∨ strLeChars b a = true := by
  induction a generalizing b with
  | nil => left; rfl
  | cons x xs ih =>
    cases b with
    | nil => right; rfl
    | cons y ys =>
      rcases lt_trichotomy x y with h | h | h
      · left; simp [strLeChars, h]
      · subst h
        rcases ih ys with h2 | h2
        · left; simp [strLeChars, lt_irrefl, h2]
        · right; simp [strLeChars, lt_irrefl, h2]
      · right; simp [strLeChars, h]

theorem strLeChars_trans (a b c : List Char) (h1 : strLeChars a b = true)
    (h2 : strLeChars b c = true) : strLeChars a c = true := by
  induction a generalizing b c with
  | nil => rfl
  | cons x xs ih =>
    cases b with
    | nil => simp [strLeChars] at h1
    | cons y ys =>
      cases c with
      | nil => simp [strLeChars] at h2
      | cons z zs =>
        by_cases hxy : x < y
        · by_cases hyz : y < z
          · have hxz : x < z := lt_trans hxy hyz
            simp [strLeChars, hxz]
          · by_cases hzy : z < y
            · simp [strLeChars, hyz, hzy] at h2
            · have hyzeq : y = z := le_antisymm (not_lt.mp hzy) (not_lt.mp hyz)
              subst hyzeq
              simp [strLeChars, hxy]
        · by_cases hyx : y < x
          · simp [strLeChars, hxy, hyx] at h1
          · have hxyeq : x = y := le_antisymm (not_lt.mp hyx) (not_lt.mp hxy)
            subst hxyeq
            simp only [strLeChars, lt_irrefl, if_false] at h1
            by_cases hxz : x < z
            · simp [strLeChars, hxz]
            · by_cases hzx : z < x
              · simp [strLeChars, hxz, hzx] at h2
              · have hxzeq : x = z := le_antisymm (not_lt.mp hzx) (not_lt.mp hxz)
                subst hxzeq
                simp only [strLeChars, lt_irrefl, if_false] at h2 ⊢
                exact ih ys zs h1 h2

instance : IsTrans Record zipLe :=
  ⟨fun _ _ _ h1 h2 => strLeChars_trans _ _ _ h1 h2⟩

instance : IsTotal Record zipLe :=
  ⟨fun a b => strLeChars_total (zipKey a).toList (zipKey b).toList⟩

theorem collectRecords_ok :
    ∀ (files : List InputFile) (acc : List Record),
    (∀ f ∈ files, ∃ rs, parseFile f = .ok rs) →
    collectRecords acc files = .ok (acc ++ concatRecords files) := by
  intro files
  induction files with
  | nil => intro acc _; simp [collectRecords, concatRecords]
  | cons g tail ih =>
    intro acc hok
    obtain ⟨rs, hg⟩ := hok g (by simp)
    simp only [collectRecords, Bind.bind, hg, Except.bind]
    rw [ih (acc ++ rs) (fun f hf => hok f (by simp [hf]))]
    simp [concatRecords, parsedOrNil, hg]

theorem sortByZip_ok (l : List Record) (h : ∀ r ∈ l, r.zip.isSome = true) :
    sortByZip l = .ok (l.insertionSort zipLe) := by
  simp [sortByZip, List.all_eq_true.mpr h]

/-- Claim C2: when every parser succeeds and every aggregated record has a
zip key, the orchestrator returns the concatenation of the per-file record
sequences sorted ascending by the `zip` field under a stable lexicographic
string comparison: the output is a permutation of the concatenation, is
sorted by lexicographic string `≤` on `zip`, and keeps any `≤`-ordered pair
of the concatenation in order (stability). -/
theorem claim_C2 (files : List InputFile)
    (hok : ∀ f ∈ files, ∃ rs, parseFile f = .ok rs)
    (hzip : ∀ r ∈ concatRecords files, r.zip.isSome = true) :
    ∃ out, process_files files = .ok out ∧
      out.Perm (concatRecords files) ∧
      List.Sorted zipLe out ∧
      (∀ a b : Record, zipLe a b → List.Sublist [a, b] (concatRecords files) →
        List.Sublist [a, b] out) := by
  refine ⟨(concatRecords files).insertionSort zipLe, ?_, ?_, ?_, ?_⟩
  · unfold process_files
    rw [collectRecords_ok files [] hok]
    simp only [List.nil_append, Bind.bind, Except.bind]
    exact sortByZip_ok _ hzip
  · exact List.perm_insertionSort zipLe _
  · exact List.sorted_insertionSort zipLe _
  · intro a b hab hsub
    exact List.pair_sublist_insertionSort hab hsub

/-- Witness for C2: files with zips [30000, 10000] and [20000] yield the
output order [10000, 20000, 30000] in both input-file orders, and the
theorem applies to the concrete pair. -/
theorem claim_C2_witness :
    process_files [fileA, fileB] =
      .ok [{ name := some "B", street := some "2 St", city := some "Y",
             state := some "BB", zip := some "10000" },
           { name := some "C", street := some "3 St", city := some "Z",
             state := some "CC", zip := some "20000" },
           { name := some "A", street := some "1 St", city := some "X",
             state := some "AA", zip := some "30000" }] ∧
    process_files [fileB, fileA] =
      .ok [{ name := some "B", street := some "2 St", city := some "Y",
             state := some "BB", zip := some "10000" },
           { name := some "C", street := some "3 St", city := some "Z",
             state := some "CC", zip := some "20000" },
           { name := some "A", street := some "1 St", city := some "X",
             state := some "AA", zip := some "30000" }] ∧
    (∃ out, process_files [fileA, fileB] = .ok out ∧
      out.Perm (concatRecords [fileA, fileB]) ∧
      List.Sorted zipLe out ∧
      (∀ a b : Record, zipLe a b → List.Sublist [a, b] (concatRecords [fileA, fileB]) →
        List.Sublist [a, b] out)) := by
  refine ⟨by decide, by decide, claim_C2 [fileA, fileB] ?_ ?_⟩
  · intro f hf
    simp only [List.mem_cons, List.mem_singleton, List.not_mem_nil, or_false] at hf
    rcases hf with rfl | rfl
    · exact ⟨[{ name := some "A", street := some "1 St", city := some "X",
                state := some "AA", zip := some "30000" },
              { name := some "B", street := some "2 St", city := some "Y",
                state := some "BB", zip := some "10000" }], by decide⟩
    · exact ⟨[{ name := some "C", street := some "3 St", city := some "Z",
                state := some "CC", zip := some "20000" }], by decide⟩
  · decide

theorem collectRecords_error (e : String) (f : InputFile)
    (hf : parseFile f = .error (.formatError e)) :
    ∀ (pre : List InputFile) (acc : List Record) (rest : List InputFile),
    (∀ g ∈ pre, ∃ rs, parseFile g = .ok rs) →
    collectRecords acc (pre ++ f :: rest) = .error (.formatError e) := by
  intro pre
  induction pre with
  | nil =>
    intro acc rest _
    simp [collectRecords, hf, Bind.bind, Except.bind]
  | cons g tail ih =>
    intro acc rest hpre
    obtain ⟨rs, hg⟩ := hpre g (by simp)
    simp only [List.cons_append, collectRecords, Bind.bind, hg, Except.bind]
    exact ih (acc ++ rs) rest (fun g2 hg2 => hpre g2 (by simp [hg2]))

/-- Claim C3: if any input file fails its format validation while every file
before it parses cleanly, the format error propagates out of the whole run
(the remaining files are never reached), the message is logged to standard
error, no JSON is printed, and the process exits with code 1. -/
theorem claim_C3 (pre : List InputFile) (f : InputFile) (rest : List InputFile) (e : String)
    (hpre : ∀ g ∈ pre, ∃ rs, parseFile g = .ok rs)
    (hf : parseFile f = .error (.formatError e)) :
    process_files (pre ++ f :: rest) = .error (.formatError e) ∧
    main_run (pre ++ f :: rest) = .formatFailure e ∧
    exitCode (main_run (pre ++ f :: rest)) = 1 ∧
    printedJson (main_run (pre ++ f :: rest)) = none ∧
    loggedStderr (main_run (pre ++ f :: rest)) = some ("ERROR: " ++ e) := by
  have hp : process_files (pre ++ f :: rest) = .error (.formatError e) := by
    unfold process_files
    rw [collectRecords_error e f hf pre [] rest hpre]
    rfl
  exact ⟨hp, by simp [main_run, hp], by simp [main_run, hp, exitCode],
    by simp [main_run, hp, printedJson], by simp [main_run, hp, loggedStderr]⟩

/-- Witness for C3: a run over a good TXT file, a TSV file with a bad header
row, and another TXT file that is never reached. -/
theorem claim_C3_witness :
    main_run [fileB, fileBadTsv, fileA] =
      .formatFailure ("The file c.tsv is missing headers: " ++
        "middle, last, organization, address, city, state, county, zip, zip4") ∧
    exitCode (main_run [fileB, fileBadTsv, fileA]) = 1 ∧
    printedJson (main_run [fileB, fileBadTsv, fileA]) = none ∧
    loggedStderr (main_run [fileB, fileBadTsv, fileA]) =
      some ("ERROR: The file c.tsv is missing headers: " ++
        "middle, last, organization, address, city, state, county, zip, zip4") := by
  have h := claim_C3 [fileB] fileBadTsv [fileA]
    ("The file c.tsv is missing headers: " ++
      "middle, last, organization, address, city, state, county, zip, zip4")
    (by
      intro g hg
      simp only [List.mem_singleton] at hg
      subst hg
      exact ⟨[{ name := some "C", street := some "3 St", city := some "Z",
                state := some "CC", zip := some "20000" }], by decide⟩)
    (by decide)
  simpa using ⟨h.2.1, h.2.2.1, h.2.2.2.1, h.2.2.2.2⟩

/-- Claim C9: a block-text entry that passes the 3-or-4-line shape check but
whose last line lacks a comma makes the parser fail with an uncaught
`IndexError` (a runtime fault, not the script's format error). -/
theorem claim_C9 :
    (txtEntries "Jane Doe\n123 Main St\nSpringfield IL 62704").length = 1 ∧
    ((txtEntries "Jane Doe\n123 Main St\nSpringfield IL 62704").getD 0 []).length = 3 ∧
    parse_txt "input.txt" "Jane Doe\n123 Main St\nSpringfield IL 62704" =
      .error (.runtimeError "IndexError: list index out of range") := by
  decide

/-- Claim C10: a well-formed markup document that passes the document-wide
required-tag check but whose entry has a present, textless `NAME` element
makes the markup parser fail with an uncaught `AttributeError` on the
attempted trim of the null text. -/
theorem claim_C10 :
    check_xml_format docEmptyName EXPERCTED_TAGS = [] ∧
    parse_xml "input.xml" docEmptyName =
      .error (.runtimeError "AttributeError: NoneType object has no attribute strip") := by
  decide

end Challenge
